import Mathlib

/-!
Verification development for the InTeXration build pipeline
(`intexration/build.py`, `intexration/helper.py`).

The Python code is shallowly embedded: paths are component lists, the
process state (current working directory, filesystem, subprocess trace,
log records) is threaded explicitly, exceptions become `Except` results,
and every external tool invocation is mediated by an `Oracle` supplying
its exit code and filesystem effect.
-/

namespace Intexration

/-- Filesystem paths, as lists of components of an absolute path. -/
abbrev Path := List String

/-- Python path strings: either absolute or relative to the process cwd. -/
inductive PyPath
  | abs : List String → PyPath
  | rel : List String → PyPath
deriving DecidableEq, Repr

/-- Resolution of a path string against a current working directory,
as `os.chdir` and the file operations do. The relative path `[]` is the
string `"."`. -/
def resolvePath (cwd : Path) : PyPath → Path
  | .abs p => p
  | .rel p => cwd ++ p

/-- Model of `os.path.join(dir, s)` for a single final component; joining
the empty string returns the directory itself, as in Python. -/
def PyPath.join : PyPath → String → PyPath
  | .abs p, s => if s = "" then .abs p else .abs (p ++ [s])
  | .rel p, s => if s = "" then .rel p else .rel (p ++ [s])

/-- Rendering of a path value back to a Python path string (used only to
build subprocess argument vectors). -/
def PyPath.toStr : PyPath → String
  | .abs p => "/" ++ String.intercalate "/" p
  | .rel p => String.intercalate "/" p

/-- Python exception values that the embedded code can raise. -/
inductive PyErr
  | runtimeError : String → PyErr
  | osError : Nat → String → PyErr
  | csvError : String → PyErr
deriving DecidableEq, Repr

/-- Message carried by an exception, as `logging.error(e)` renders it. -/
def PyErr.message : PyErr → String
  | .runtimeError m => m
  | .osError _ m => m
  | .csvError m => m

def PyErr.isOS : PyErr → Bool
  | .osError _ _ => true
  | _ => false

def errnoENOENT : Nat := 2
def errnoEEXIST : Nat := 17
def errnoENOTDIR : Nat := 20
def errnoEISDIR : Nat := 21

/-- The filesystem: which paths exist as directories and which as
regular files. -/
structure FS where
  dirs : List Path
  files : List Path
deriving DecidableEq, Repr

/-- Insertion without duplication into a path list. -/
def insertPath (q : Path) (l : List Path) : List Path :=
  if q ∈ l then l else l ++ [q]

/-- All nonempty prefixes of a path, shortest first, ending with the path
itself. -/
def pathPrefixes (p : Path) : List Path :=
  (List.range p.length).map (fun i => p.take (i + 1))

/-- The final component of `q` when `q` is a direct child of `p`. -/
def childName (p q : Path) : Option String :=
  if q.take p.length = p ∧ q.length = p.length + 1 then q.getLast? else none

/-- Names of the direct children (directories and files) of `p`, as
`os.listdir` returns them. -/
def FS.children (fs : FS) (p : Path) : List String :=
  ((fs.dirs ++ fs.files).filterMap (childName p)).dedup

/-- Names of the direct child directories of `p`. -/
def FS.childDirs (fs : FS) (p : Path) : List String :=
  (fs.dirs.filterMap (childName p)).dedup

/-- Observable events: subprocess invocations (with the cwd they run in)
and file copies. -/
inductive Event
  | call : List String → Path → Event
  | copy : Path → Path → Event
deriving DecidableEq, Repr

/-- Records emitted through the `logging` module. -/
inductive LogMsg
  | info : String → LogMsg
  | warning : String → LogMsg
  | error : String → LogMsg
deriving DecidableEq, Repr

/-- One parsed section of a `.intexration` manifest: the section name and
the optional `dir` / `idx` / `bib` keys. -/
structure CfgSection where
  name : String
  dir : Option String
  idx : Option String
  bib : Option String
deriving DecidableEq, Repr

/-- The full process state threaded through the embedded code.
`manifests` maps a config-file path to the sections `configparser` would
read from it. -/
structure World where
  cwd : Path
  fs : FS
  manifests : List (Path × List CfgSection)
  trace : List Event
  logs : List LogMsg
deriving DecidableEq, Repr

def pushLog (m : LogMsg) (w : World) : World :=
  { w with logs := w.logs ++ [m] }

/-- The effect monad of the embedding: state passing over `World` with
Python exceptions as `Except` errors. The state survives an error so that
`try`/`finally` can be modelled. -/
def PyM (α : Type) : Type := World → Except PyErr α × World

def PyM.pure (a : α) : PyM α := fun w => (Except.ok a, w)

def PyM.bind (x : PyM α) (f : α → PyM β) : PyM β := fun w =>
  match x w with
  | (Except.ok a, w1) => f a w1
  | (Except.error e, w1) => (Except.error e, w1)

def PyM.forM : List α → (α → PyM Unit) → PyM Unit
  | [], _ => PyM.pure ()
  | a :: as, f => PyM.bind (f a) (fun _ => PyM.forM as f)

def raise (e : PyErr) : PyM α := fun w => (Except.error e, w)

def logInfo (s : String) : PyM Unit := fun w => (Except.ok (), pushLog (.info s) w)

def logWarning (s : String) : PyM Unit := fun w => (Except.ok (), pushLog (.warning s) w)

def logError (s : String) : PyM Unit := fun w => (Except.ok (), pushLog (.error s) w)

/-- Model of `logging.warning` guarded by a non-zero exit code check. -/
def warnIf (b : Bool) (s : String) : PyM Unit :=
  if b then logWarning s else PyM.pure ()

/-- Observation of the current working directory (`os.getcwd`). -/
def getCwd : PyM Path := fun w => (Except.ok w.cwd, w)

/-- Behaviour of the external tools: exit code and filesystem effect of a
subprocess invocation, given its argument vector, working directory and
the filesystem it runs on. -/
structure Oracle where
  exit : List String → Path → FS → Int
  eff : List String → Path → FS → FS

/-- Model of `subprocess.call(argv, stdout=DEVNULL, stderr=DEVNULL)`: the
call blocks, runs in the current working directory, mutates the
filesystem per the oracle, and returns the exit code. -/
def subprocessCall (o : Oracle) (argv : List String) : PyM Int := fun w =>
  (Except.ok (o.exit argv w.cwd w.fs),
   { w with fs := o.eff argv w.cwd w.fs, trace := w.trace ++ [Event.call argv w.cwd] })

/-- Model of `os.listdir(path)`: the child names of an existing
directory; `FileNotFoundError` on a missing path, `NotADirectoryError`
on a regular file. -/
def osListdir (path : PyPath) : PyM (List String) := fun w =>
  let p := resolvePath w.cwd path
  if p ∈ w.fs.dirs then (Except.ok (w.fs.children p), w)
  else if p ∈ w.fs.files then (Except.error (.osError errnoENOTDIR "NotADirectoryError"), w)
  else (Except.error (.osError errnoENOENT "FileNotFoundError"), w)

/-- Model of `os.remove(path)`: deletes a regular file;
`IsADirectoryError` on a directory, `FileNotFoundError` on a missing
path. -/
def osRemove (path : PyPath) : PyM Unit := fun w =>
  let p := resolvePath w.cwd path
  if p ∈ w.fs.dirs then (Except.error (.osError errnoEISDIR "IsADirectoryError"), w)
  else if p ∈ w.fs.files then
    (Except.ok (), { w with fs := { w.fs with files := w.fs.files.filter (fun q => q ≠ p) } })
  else (Except.error (.osError errnoENOENT "FileNotFoundError"), w)

/-- Model of `shutil.rmtree(path)`: removes a directory and everything
below it; fails on a path that is not an existing directory. -/
def shutilRmtree (path : PyPath) : PyM Unit := fun w =>
  let p := resolvePath w.cwd path
  if p ∈ w.fs.dirs then
    (Except.ok (),
     { w with fs := { dirs := w.fs.dirs.filter (fun q => !(p.isPrefixOf q)),
                      files := w.fs.files.filter (fun q => !(p.isPrefixOf q)) } })
  else if p ∈ w.fs.files then (Except.error (.osError errnoENOTDIR "NotADirectoryError"), w)
  else (Except.error (.osError errnoENOENT "FileNotFoundError"), w)

/-- A proper ancestor of `p` exists as a regular file, which makes
`mkdir` fail with `ENOTDIR`. -/
def hasFileAncestor (fs : FS) (p : Path) : Bool :=
  (pathPrefixes p.dropLast).any (fun q => decide (q ∈ fs.files))

/-- Model of `os.makedirs(path)`: `FileExistsError` (errno `EEXIST`) when
the path itself already exists, whether as a directory or as a regular
file; `NotADirectoryError` when a component that should be a parent
directory is a regular file; otherwise creates the directory and all
missing parents. -/
def osMakedirs (path : PyPath) : PyM Unit := fun w =>
  let p := resolvePath w.cwd path
  if p ∈ w.fs.files ∨ p ∈ w.fs.dirs then
    (Except.error (.osError errnoEEXIST "FileExistsError"), w)
  else if hasFileAncestor w.fs p then
    (Except.error (.osError errnoENOTDIR "NotADirectoryError"), w)
  else
    (Except.ok (),
     { w with fs := { w.fs with dirs := (pathPrefixes p).foldl (fun l q => insertPath q l) w.fs.dirs } })

/-- Model of `shutil.copyfile(src, dst)`: `FileNotFoundError` when the
source is absent, otherwise the destination file comes to exist. -/
def copyfile (src dst : PyPath) : PyM Unit := fun w =>
  let s := resolvePath w.cwd src
  let d := resolvePath w.cwd dst
  if s ∈ w.fs.files then
    (Except.ok (),
     { w with fs := { w.fs with files := insertPath d w.fs.files },
              trace := w.trace ++ [Event.copy s d] })
  else (Except.error (.osError errnoENOENT "FileNotFoundError"), w)

/-! ### `intexration/build.py` -/

/-- The `cd` context manager of `build.py`. The source saves
`os.curdir` — which is the literal string `"."`, not the result of
`os.getcwd()` — so the `finally` clause executes `os.chdir(".")`, which
resolves against whatever directory is then current. -/
def cd (dirname : PyPath) (body : PyM α) : PyM α := fun w =>
  let cur_dir : PyPath := PyPath.rel []
  let w1 := { w with cwd := resolvePath w.cwd dirname }
  let r := body w1
  (r.1, { r.2 with cwd := resolvePath r.2.cwd cur_dir })

/-- `create_dir` of `build.py`: `os.makedirs(path)` with `OSError`
caught and re-raised unless its errno is `EEXIST`; returns the path. -/
def create_dir (path : PyPath) : PyM PyPath := fun w =>
  match osMakedirs path w with
  | (Except.ok _, w1) => (Except.ok path, w1)
  | (Except.error (.osError en s), w1) =>
    if en ≠ errnoEEXIST then (Except.error (.osError en s), w1) else (Except.ok path, w1)
  | (Except.error e, w1) => (Except.error e, w1)

/-- The loop body of `empty`: try `os.remove`; on `OSError` fall back to
`shutil.rmtree` unless `files_only`; the second `except Exception`
clause (which logs) is reachable only for non-`OSError` failures. -/
def emptyItem (path : PyPath) (files_only : Bool) (content : String) : PyM Unit := fun w =>
  match osRemove (path.join content) w with
  | (Except.ok _, w1) => (Except.ok (), w1)
  | (Except.error (.osError _ _), w1) =>
    if !files_only then shutilRmtree (path.join content) w1
    else (Except.ok (), w1)
  | (Except.error e, w1) => logError e.message w1

/-- `empty` of `build.py`: for each entry of `os.listdir(path)`, delete
it as a file, falling back per `emptyItem`. -/
def empty (path : PyPath) (files_only : Bool) : PyM Unit :=
  PyM.bind (osListdir path) (fun contents =>
    PyM.forM contents (fun content => emptyItem path files_only content))

/-- `clean` of `build.py`: `shutil.rmtree(path)`. -/
def clean (path : PyPath) : PyM Unit := shutilRmtree path

/-- `CompileTask.__init__` state: one compile job. -/
structure CompileTask where
  input_dir : PyPath
  output_dir : PyPath
  name : String
  idx : String
  bib : String
deriving DecidableEq, Repr

def CompileTask.tex (t : CompileTask) : String := t.name ++ ".tex"

def CompileTask.pdf (t : CompileTask) : String := t.name ++ ".pdf"

def CompileTask.log (t : CompileTask) : String := t.name ++ ".log"

/-- `CompileTask._makeindex`: run `makeindex` inside the input
directory; a non-zero exit is only a warning. -/
def CompileTask.makeindex (o : Oracle) (t : CompileTask) : PyM Unit :=
  cd t.input_dir
    (PyM.bind (subprocessCall o ["makeindex", t.idx]) (fun code =>
      warnIf (code != 0) "Makeindex failed"))

/-- `CompileTask._bibtex`: run `bibtex` inside the input directory; a
non-zero exit is only a warning. -/
def CompileTask.bibtex (o : Oracle) (t : CompileTask) : PyM Unit :=
  cd t.input_dir
    (PyM.bind (subprocessCall o ["bibtex", t.bib]) (fun code =>
      warnIf (code != 0) "Bibtex failed"))

/-- `CompileTask._compile`: run `pdflatex` non-interactively inside the
input directory; a non-zero exit is only a warning. -/
def CompileTask.compile (o : Oracle) (t : CompileTask) : PyM Unit :=
  cd t.input_dir
    (PyM.bind (subprocessCall o ["pdflatex", "-interaction=nonstopmode", t.tex]) (fun code =>
      warnIf (code != 0) "Compilation finished with errors"))

/-- `CompileTask._copy`: copy `name.pdf` and then `name.log` from the
input directory to the output directory. -/
def CompileTask.copy (t : CompileTask) : PyM Unit :=
  PyM.bind (copyfile (t.input_dir.join t.pdf) (t.output_dir.join t.pdf)) (fun _ =>
    copyfile (t.input_dir.join t.log) (t.output_dir.join t.log))

/-- The four external passes of `CompileTask.run`, in source order:
typeset, index, bibliography, typeset. -/
def CompileTask.passes (o : Oracle) (t : CompileTask) : PyM Unit :=
  PyM.bind (t.compile o) (fun _ =>
  PyM.bind (t.makeindex o) (fun _ =>
  PyM.bind (t.bibtex o) (fun _ =>
  t.compile o)))

/-- `CompileTask.run`: log, the four passes, then the copy, then the
closing log line. -/
def CompileTask.run (o : Oracle) (t : CompileTask) : PyM Unit :=
  PyM.bind (logInfo ("Compiling " ++ t.name)) (fun _ =>
  PyM.bind (t.passes o) (fun _ =>
  PyM.bind t.copy (fun _ =>
  logInfo ("Compiling " ++ t.name ++ " finished."))))

/-- `IntexrationConfig` state: the parsed sections of a manifest. -/
structure IntexrationConfig where
  sections : List CfgSection
deriving DecidableEq, Repr

/-- Sections a `configparser` would read from the file at `p`, per the
world's `manifests` table. -/
def lookupManifest (ms : List (Path × List CfgSection)) (p : Path) : List CfgSection :=
  match ms.find? (fun pr => pr.1 == p) with
  | some pr => pr.2
  | none => []

/-- `IntexrationConfig.__init__`: a missing file is a fatal
`RuntimeError`; otherwise the file is parsed. -/
def IntexrationConfig.init (path : PyPath) : PyM IntexrationConfig := fun w =>
  let p := resolvePath w.cwd path
  if p ∈ w.fs.files ∨ p ∈ w.fs.dirs then (Except.ok ⟨lookupManifest w.manifests p⟩, w)
  else (Except.error (.runtimeError "InTeXration config file not found"), w)

def IntexrationConfig.find? (c : IntexrationConfig) (n : String) : Option CfgSection :=
  c.sections.find? (fun s => s.name == n)

/-- `IntexrationConfig.names`: all section names in file order. -/
def IntexrationConfig.names (c : IntexrationConfig) : List String :=
  c.sections.map (fun s => s.name)

/-- `IntexrationConfig.dir`: the `dir` option, defaulting to `''`. -/
def IntexrationConfig.dir (c : IntexrationConfig) (n : String) : String :=
  match c.find? n with
  | some s => s.dir.getD ""
  | none => ""

/-- `IntexrationConfig.idx`: the `idx` option, defaulting to
`name + '.idx'`. -/
def IntexrationConfig.idx (c : IntexrationConfig) (n : String) : String :=
  match c.find? n with
  | some s => s.idx.getD (n ++ ".idx")
  | none => n ++ ".idx"

/-- `IntexrationConfig.bib`: the `bib` option, defaulting to `name`. -/
def IntexrationConfig.bib (c : IntexrationConfig) (n : String) : String :=
  match c.find? n with
  | some s => s.bib.getD n
  | none => n

/-- `IntexrationTask.config_name`. -/
def config_name : String := ".intexration"

/-- `IntexrationTask` state after `__init__` loaded the manifest. -/
structure IntexrationTask where
  input_dir : PyPath
  output_dir : PyPath
  config : IntexrationConfig
deriving DecidableEq, Repr

/-- `IntexrationTask.__init__`: loads the manifest from
`input_dir/.intexration` (raising when it is missing). -/
def IntexrationTask.init (input_dir output_dir : PyPath) : PyM IntexrationTask :=
  PyM.bind (IntexrationConfig.init (input_dir.join config_name)) (fun c =>
    PyM.pure ⟨input_dir, output_dir, c⟩)

/-- The `CompileTask` built for manifest entry `name`, as both
`IntexrationTask.run` and `run_only` construct it. -/
def IntexrationTask.taskFor (t : IntexrationTask) (name : String) : CompileTask :=
  ⟨t.input_dir.join (t.config.dir name), t.output_dir, name,
   t.config.idx name, t.config.bib name⟩

/-- `IntexrationTask.run`: compile every manifest entry in file order. -/
def IntexrationTask.run (o : Oracle) (t : IntexrationTask) : PyM Unit :=
  PyM.bind (logInfo "Compile task started") (fun _ =>
    PyM.forM t.config.names (fun name => (t.taskFor name).run o))

/-- `IntexrationTask.run_only`: compile the single named entry; an
unknown name is a fatal `RuntimeError`. -/
def IntexrationTask.run_only (o : Oracle) (t : IntexrationTask) (name : String) : PyM Unit :=
  if name ∈ t.config.names then (t.taskFor name).run o
  else raise (.runtimeError "Build not in intexration config")

/-- `CloneTask.__init__` state. -/
structure CloneTask where
  root : PyPath
  owner : String
  repository : String
  commit : String
deriving DecidableEq, Repr

/-- `CloneTask.url`. -/
def CloneTask.url (t : CloneTask) : String :=
  "https://github.com/" ++ t.owner ++ "/" ++ t.repository ++ ".git"

/-- The join `root/owner/repository`, as written inline in `_clean` and
`clone_dir`. -/
def CloneTask.repoDir (t : CloneTask) : PyPath :=
  (t.root.join t.owner).join t.repository

/-- `CloneTask.clone_dir`: `create_dir(root/owner/repository/commit)`,
creating the directory as a side effect and returning the path. -/
def CloneTask.clone_dir (t : CloneTask) : PyM PyPath :=
  create_dir (t.repoDir.join t.commit)

/-- `CloneTask._clean`: purge `root/owner/repository` recursively. -/
def CloneTask.clean (t : CloneTask) : PyM Unit :=
  empty t.repoDir false

/-- `CloneTask._clone`: log, create the target directory, invoke
`git clone`; a non-zero exit is a fatal `RuntimeError`. -/
def CloneTask.clone (o : Oracle) (t : CloneTask) : PyM Unit :=
  PyM.bind (logInfo ("Cloning from " ++ t.url)) (fun _ =>
  PyM.bind t.clone_dir (fun d =>
  PyM.bind (subprocessCall o ["git", "clone", t.url, d.toStr]) (fun code =>
  if code != 0 then raise (.runtimeError "Clone failed") else PyM.pure ())))

/-- `CloneTask.run`: `_clean` then `_clone`. -/
def CloneTask.run (o : Oracle) (t : CloneTask) : PyM Unit :=
  PyM.bind t.clean (fun _ => t.clone o)

/-- `Build.__init__` state (`input_name = 'build'`,
`output_name = 'out'`). -/
structure Build where
  root : PyPath
  owner : String
  repository : String
  commit : String
deriving DecidableEq, Repr

def Build.input_dir (b : Build) : PyPath := b.root.join "build"

def Build.output_dir (b : Build) : PyPath := b.root.join "out"

def Build.name (b : Build) : String := b.owner ++ "/" ++ b.repository

/-- The `CloneTask` that `Build.run` constructs. -/
def Build.clone_task (b : Build) : CloneTask :=
  ⟨b.input_dir, b.owner, b.repository, b.commit⟩

/-- The body of the `try` block of `Build.run`: fetch, then compile every
manifest entry of the fresh checkout. -/
def Build.attempt (o : Oracle) (b : Build) : PyM Unit :=
  PyM.bind (b.clone_task.run o) (fun _ =>
  PyM.bind b.clone_task.clone_dir (fun d =>
  PyM.bind (IntexrationTask.init d b.output_dir) (fun t =>
  t.run o)))

/-- `Build.run`: the `try` body, an `except RuntimeError` clause that
logs and swallows, a `finally` clause that removes the checkout, and a
closing log line reached only when no exception is pending. -/
def Build.run (o : Oracle) (b : Build) : PyM Unit := fun w =>
  let w0 := pushLog (.info ("Build started for " ++ b.name)) w
  let res1 := Build.attempt o b w0
  let res2 : Except PyErr Unit × World :=
    match res1 with
    | (Except.error (.runtimeError m), w1) => (Except.ok (), pushLog (.error m) w1)
    | r => r
  let res3 := PyM.bind b.clone_task.clone_dir (fun d => clean d) res2.2
  match res3.1 with
  | Except.error e => (Except.error e, res3.2)
  | Except.ok _ =>
    match res2.1 with
    | Except.error e => (Except.error e, res3.2)
    | Except.ok _ => (Except.ok (), pushLog (.info ("Build finished for " ++ b.name)) res3.2)

/-- `LazyBuild.__init__` state. -/
structure LazyBuild where
  root : PyPath
  owner : String
  repository : String
  document_name : String
deriving DecidableEq, Repr

def LazyBuild.input_dir (b : LazyBuild) : PyPath := b.root.join "build"

def LazyBuild.output_dir (b : LazyBuild) : PyPath := b.root.join "out"

def LazyBuild.name (b : LazyBuild) : String := b.owner ++ "/" ++ b.repository

/-- `LazyBuild.commit_dir`: list `root/build/owner/repository`; unless
there is exactly one entry, raise; otherwise return the single entry's
path. -/
def LazyBuild.commit_dir (b : LazyBuild) : PyM PyPath :=
  PyM.bind (osListdir ((b.input_dir.join b.owner).join b.repository)) (fun commit_dirs =>
    if commit_dirs.length = 1 then
      PyM.pure (((b.input_dir.join b.owner).join b.repository).join (commit_dirs.headD ""))
    else raise (.runtimeError "Unable to determine commit directory for lazy build"))

/-- `LazyBuild.run`: discover the checkout and compile the single named
document; any exception is caught and logged. -/
def LazyBuild.run (o : Oracle) (b : LazyBuild) : PyM Unit := fun w =>
  let w0 := pushLog (.info ("Build (lazy) started for " ++ b.name)) w
  let res := (PyM.bind b.commit_dir (fun d =>
              PyM.bind (IntexrationTask.init d b.output_dir) (fun t =>
              t.run_only o b.document_name))) w0
  match res with
  | (Except.error e, w1) => (Except.ok (), pushLog (.error e.message) w1)
  | r => r

/-! ### `intexration/helper.py` -/

/-- A field written under `csv.QUOTE_NONE` raises unless it is free of
the delimiter, the quote character and line breaks. -/
def needsQuoting (f : String) : Bool :=
  f.data.any (fun c => c = ',' ∨ c = '"' ∨ c = '\n' ∨ c = '\r')

/-- Model of `csv.writer(..., delimiter=',', quoting=QUOTE_NONE)
.writerow(row)`: the line appended to the file, or the `csv.Error` the
writer raises. -/
def csvWriteRecord (row : List String) : Except PyErr String :=
  if row.any needsQuoting then
    Except.error (.csvError "need to escape, but no escapechar set")
  else if row = [""] then
    Except.error (.csvError "single empty field record must be quoted")
  else Except.ok (String.intercalate "," row)

/-- Splitting one CSV line into fields at the `,` delimiter (quoting
plays no role for records the key store itself writes). -/
def splitFields : List Char → List (List Char)
  | [] => [[]]
  | c :: rest =>
    if c = ',' then [] :: splitFields rest
    else
      match splitFields rest with
      | f :: fs => (c :: f) :: fs
      | [] => [[c]]

/-- Model of one row produced by `csv.reader`: a blank line yields the
empty row, any other line is split at the delimiter. -/
def csvParseLine (l : String) : List String :=
  if l = "" then [] else (splitFields l.data).map (fun cs => String.mk cs)

/-- The key store's backing file, as the list of its complete lines. -/
structure ApiFile where
  lines : List String
deriving DecidableEq, Repr

/-- `ApiHelper.add`: append one CSV row `[api_key]` to the file. -/
def ApiHelper.add (f : ApiFile) (api_key : String) : Except PyErr ApiFile :=
  match csvWriteRecord [api_key] with
  | Except.ok rec => Except.ok ⟨f.lines ++ [rec]⟩
  | Except.error e => Except.error e

/-- `ApiHelper.is_valid`: scan every row of the file for the key. -/
def ApiHelper.is_valid (f : ApiFile) (key_to_check : String) : Bool :=
  f.lines.any (fun l => key_to_check ∈ csvParseLine l)

/-! ### Concrete environments used by the theorems below -/

instance {ε α : Type} [DecidableEq ε] [DecidableEq α] : DecidableEq (Except ε α) := fun x y =>
  match x, y with
  | Except.ok a, Except.ok b =>
    if h : a = b then isTrue (by rw [h]) else isFalse (by simp [h])
  | Except.ok _, Except.error _ => isFalse (by simp)
  | Except.error _, Except.ok _ => isFalse (by simp)
  | Except.error e, Except.error f =>
    if h : e = f then isTrue (by rw [h]) else isFalse (by simp [h])

/-- External tools that always exit 0 and leave the filesystem alone. -/
def nullOracle : Oracle := ⟨fun _ _ _ => 0, fun _ _ fs => fs⟩

/-- External tools where `git clone` deposits a `.intexration` manifest
in the checkout and every tool exits 0; the typesetting passes produce
no artifact. -/
def gitOracle : Oracle :=
  ⟨fun _ _ _ => 0,
   fun argv _ fs =>
     if argv.head? = some "git" then
       { fs with files := insertPath ["r", "build", "o", "p", "c", ".intexration"] fs.files }
     else fs⟩

/-- A world holding an empty `root/build/o/p` tree, whose manifest file
(once cloned) declares the single document `doc` with no options. -/
def buildWorld : World :=
  ⟨["home"],
   ⟨[["r"], ["r", "build"], ["r", "build", "o"], ["r", "build", "o", "p"]], []⟩,
   [(["r", "build", "o", "p", "c", ".intexration"], [⟨"doc", none, none, none⟩])],
   [], []⟩

/-- The full build of revision `c` of `o/p` under root `/r`. -/
def demoBuild : Build := ⟨.abs ["r"], "o", "p", "c"⟩

/-- A world where `root/build/o/p` contains one regular file `stray` and
no revision subdirectory at all. -/
def lazyWorld : World :=
  ⟨["home"],
   ⟨[["r"], ["r", "build"], ["r", "build", "o"], ["r", "build", "o", "p"]],
    [["r", "build", "o", "p", "stray"]]⟩,
   [], [], []⟩

/-- The lazy build of document `doc` of `o/p` under root `/r`. -/
def demoLazy : LazyBuild := ⟨.abs ["r"], "o", "p", "doc"⟩

/-- A compile job for document `doc` with input directory `/job` and
output directory `/out`. -/
def docTask : CompileTask := ⟨.abs ["job"], .abs ["out"], "doc", "doc.idx", "doc"⟩

/-- A world whose working directory is `/home` and which contains the
directory `/job`. -/
def cdWorld : World := ⟨["home"], ⟨[["job"]], []⟩, [], [], []⟩

/-- A world containing the directory `/d` with the single subdirectory
`/d/sub`. -/
def purgeWorld : World := ⟨[], ⟨[["d"], ["d", "sub"]], []⟩, [], [], []⟩

/-! ### Supporting lemmas -/

theorem PyM.bind_ok {α β : Type} {x : PyM α} {f : α → PyM β} {w w2 : World} {b : β}
    (h : PyM.bind x f w = (Except.ok b, w2)) :
    ∃ a w1, x w = (Except.ok a, w1) ∧ f a w1 = (Except.ok b, w2) := by
  unfold PyM.bind at h
  rcases hx : x w with ⟨r, w1⟩
  rw [hx] at h
  cases r with
  | ok a => exact ⟨a, w1, rfl, h⟩
  | error e => simp at h

theorem PyM.bind_error {α β : Type} {x : PyM α} {f : α → PyM β} {w w2 : World} {e : PyErr}
    (h : PyM.bind x f w = (Except.error e, w2)) :
    x w = (Except.error e, w2) ∨ ∃ a w1, x w = (Except.ok a, w1) ∧ f a w1 = (Except.error e, w2) := by
  unfold PyM.bind at h
  rcases hx : x w with ⟨r, w1⟩
  rw [hx] at h
  cases r with
  | ok a => exact Or.inr ⟨a, w1, rfl, h⟩
  | error e1 =>
    left
    simp only [Prod.mk.injEq, Except.error.injEq] at h
    rw [h.1, h.2]

@[simp] theorem pushLog_cwd (m : LogMsg) (w : World) : (pushLog m w).cwd = w.cwd := rfl

@[simp] theorem pushLog_fs (m : LogMsg) (w : World) : (pushLog m w).fs = w.fs := rfl

@[simp] theorem pushLog_trace (m : LogMsg) (w : World) : (pushLog m w).trace = w.trace := rfl

@[simp] theorem pushLog_manifests (m : LogMsg) (w : World) :
    (pushLog m w).manifests = w.manifests := rfl

theorem String.append_ne_empty_of_right (s t : String) (h : t ≠ "") : s ++ t ≠ "" := by
  intro heq
  apply h
  have hd := congrArg String.data heq
  rw [String.data_append] at hd
  have ht : t.data = [] := (List.append_eq_nil.mp hd).2
  cases t
  simp_all

theorem CompileTask.tex_ne_empty (t : CompileTask) : t.tex ≠ "" :=
  String.append_ne_empty_of_right t.name ".tex" (by decide)

theorem CompileTask.pdf_ne_empty (t : CompileTask) : t.pdf ≠ "" :=
  String.append_ne_empty_of_right t.name ".pdf" (by decide)

theorem CompileTask.log_ne_empty (t : CompileTask) : t.log ≠ "" :=
  String.append_ne_empty_of_right t.name ".log" (by decide)

theorem CompileTask.log_ne_pdf (t : CompileTask) : t.log ≠ t.pdf := by
  intro h
  have hd := congrArg String.data h
  unfold CompileTask.log CompileTask.pdf at hd
  rw [String.data_append, String.data_append] at hd
  have := List.append_cancel_left hd
  simp [String.data] at this

theorem PyPath.join_abs (p : List String) (s : String) (h : s ≠ "") :
    (PyPath.abs p).join s = PyPath.abs (p ++ [s]) := by
  unfold PyPath.join
  simp [h]

@[simp] theorem resolvePath_abs (cwd : Path) (p : List String) :
    resolvePath cwd (PyPath.abs p) = p := rfl

theorem mem_insertPath {a q : Path} {l : List Path} :
    a ∈ insertPath q l ↔ a = q ∨ a ∈ l := by
  unfold insertPath
  by_cases h : q ∈ l
  · simp only [if_pos h]
    constructor
    · exact Or.inr
    · rintro (rfl | ha)
      · exact h
      · exact ha
  · simp [if_neg h, List.mem_append, or_comm]

theorem mem_foldl_insertPath {a : Path} {qs : List Path} {l : List Path} :
    a ∈ qs.foldl (fun l q => insertPath q l) l ↔ a ∈ l ∨ a ∈ qs := by
  induction qs generalizing l with
  | nil => simp
  | cons q qs ih =>
    simp only [List.foldl_cons, ih, mem_insertPath, List.mem_cons]
    tauto

theorem mem_pathPrefixes {q p : Path} :
    q ∈ pathPrefixes p ↔ ∃ i, i < p.length ∧ q = p.take (i + 1) := by
  unfold pathPrefixes
  simp only [List.mem_map, List.mem_range]
  constructor
  · rintro ⟨i, hi, rfl⟩; exact ⟨i, hi, rfl⟩
  · rintro ⟨i, hi, rfl⟩; exact ⟨i, hi, rfl⟩

theorem self_mem_pathPrefixes {p : Path} (h : p ≠ []) : p ∈ pathPrefixes p := by
  rw [mem_pathPrefixes]
  refine ⟨p.length - 1, ?_, ?_⟩
  · have : 0 < p.length := List.length_pos.mpr h
    omega
  · have : 0 < p.length := List.length_pos.mpr h
    rw [Nat.sub_add_cancel (by omega), List.take_length]

theorem childName_concat (p : Path) (s : String) : childName p (p ++ [s]) = some s := by
  unfold childName
  rw [if_pos]
  · exact List.getLast?_concat p
  · exact ⟨List.take_left p [s], by simp⟩

/-- A child shape among the prefixes of `p ++ [c]` is `p ++ [c]` itself. -/
theorem child_prefix_of_concat {p : Path} {c s : String}
    (h : p ++ [s] ∈ pathPrefixes (p ++ [c])) : s = c := by
  rw [mem_pathPrefixes] at h
  obtain ⟨i, hi, heq⟩ := h
  have hlen := congrArg List.length heq
  simp only [List.length_append, List.length_take, List.length_singleton] at hlen
  have htake : (p ++ [c]).take (i + 1) = p ++ [c] :=
    List.take_of_length_le (by simp; omega)
  rw [htake] at heq
  have := List.append_inj_right heq rfl
  simpa using this

theorem children_complete {fs : FS} {p : Path} {s : String}
    (h : p ++ [s] ∈ fs.dirs ∨ p ++ [s] ∈ fs.files) : s ∈ fs.children p := by
  unfold FS.children
  rw [List.mem_dedup, List.mem_filterMap]
  exact ⟨p ++ [s], by rw [List.mem_append]; tauto, childName_concat p s⟩

theorem osMakedirs_error_os {q : PyPath} {w : World} {e : PyErr}
    (h : (osMakedirs q w).1 = Except.error e) : e.isOS = true := by
  simp only [osMakedirs] at h
  split at h
  · cases h; rfl
  · split at h
    · cases h; rfl
    · cases h

theorem shutilRmtree_error_os {q : PyPath} {w : World} {e : PyErr}
    (h : (shutilRmtree q w).1 = Except.error e) : e.isOS = true := by
  simp only [shutilRmtree] at h
  split at h
  · cases h
  · split at h
    · cases h; rfl
    · cases h; rfl

theorem create_dir_error_os {q : PyPath} {w : World} {e : PyErr}
    (h : (create_dir q w).1 = Except.error e) : e.isOS = true := by
  unfold create_dir at h
  rcases hm : osMakedirs q w with ⟨r, w1⟩
  rw [hm] at h
  cases r with
  | ok a => simp at h
  | error e1 =>
    have h1 : e1.isOS = true := osMakedirs_error_os (q := q) (w := w) (by rw [hm])
    cases e1 with
    | runtimeError m => simp [PyErr.isOS] at h1
    | csvError m => simp [PyErr.isOS] at h1
    | osError n s =>
      simp only at h
      split at h
      · cases h; rfl
      · cases h

/-! ### Claim theorems -/

/-- C1. The typeset step of `docTask`, started from `/home`, does run
`pdflatex` with the working directory at the job's input directory
`/job`; but afterwards the working directory is still `/job`, not the
`/home` it started from: the `cd` context manager saves `os.curdir`
(the string `"."`) instead of `os.getcwd()`, so its `finally` clause is
a no-op and the working directory is never restored. -/
theorem cd_step_leaves_cwd_at_input_dir :
    (docTask.compile nullOracle cdWorld).2.trace
        = [Event.call ["pdflatex", "-interaction=nonstopmode", "doc.tex"] ["job"]]
      ∧ (docTask.compile nullOracle cdWorld).2.cwd = ["job"]
      ∧ cdWorld.cwd = ["home"] := by
  decide

/-- C2, counterexample. A full build in which `git clone` succeeds and
delivers a manifest, but the typesetting passes leave no `doc.pdf`
behind: the `FileNotFoundError` raised by `shutil.copyfile` is not a
`RuntimeError`, so `Build.run` does not return normally — the error
propagates to the caller. -/
theorem build_run_propagates_missing_artifact_oserror :
    (Build.run gitOracle demoBuild buildWorld).1
      = Except.error (.osError errnoENOENT "FileNotFoundError") := by
  decide

/-- C7, counterexample. Under `root/build/o/p` there are zero revision
subdirectories (only the regular file `stray`), yet the lazy build does
not fail with the state error: `os.listdir` counts the file, finds
exactly one entry, and `commit_dir` happily returns the file's path. -/
theorem lazy_build_stray_file_no_state_error :
    FS.childDirs lazyWorld.fs ["r", "build", "o", "p"] = []
      ∧ (demoLazy.commit_dir lazyWorld).1
          = Except.ok (.abs ["r", "build", "o", "p", "stray"]) := by
  decide

/-- C8, counterexample. The path `/x` already exists as a regular file,
a collision with a non-directory; `os.makedirs` reports `EEXIST`, which
`create_dir` swallows, so the call succeeds silently instead of
propagating a fatal I/O error. -/
theorem create_dir_silent_on_file_collision :
    (create_dir (.abs ["x"]) ⟨[], ⟨[], [["x"]]⟩, [], [], []⟩).1
      = Except.ok (.abs ["x"]) := by
  decide

/-- C9, counterexample. Purging `/d` with `files_only` true meets the
subdirectory `/d/sub`, whose deletion as a file fails with `OSError`;
the child is left intact, but nothing at all is logged — the `except
Exception` clause that logs is unreachable for `OSError`, which the
first clause already caught and silently dropped. -/
theorem empty_files_only_failure_unlogged :
    (empty (.abs ["d"]) true purgeWorld).1 = Except.ok ()
      ∧ (empty (.abs ["d"]) true purgeWorld).2.logs = []
      ∧ ["d", "sub"] ∈ (empty (.abs ["d"]) true purgeWorld).2.fs.dirs := by
  decide

/-- C10, counterexample. The empty string contains no comma, newline or
quote, yet `add("")` does not lead to `is_valid` returning `True`: the
`csv` writer refuses to emit a single empty unquoted field and raises
`csv.Error`, so `add` itself fails. -/
theorem api_add_empty_key_raises :
    ApiHelper.add ⟨[]⟩ ""
      = Except.error (.csvError "single empty field record must be quoted") := by
  decide

theorem splitFields_no_comma {cs : List Char} (h : ',' ∉ cs) : splitFields cs = [cs] := by
  induction cs with
  | nil => rfl
  | cons c rest ih =>
    simp only [List.mem_cons, not_or] at h
    unfold splitFields
    rw [if_neg (fun hh => h.1 hh.symm), ih h.2]

theorem no_comma_of_not_needsQuoting {s : String} (h : needsQuoting s = false) :
    ',' ∉ s.data := by
  unfold needsQuoting at h
  rw [List.any_eq_false] at h
  intro hc
  have := h ',' hc
  simp at this

/-- C10, amended. For every nonempty key free of the delimiter, quote
and line-break characters, `add` appends the key as one CSV line and a
subsequent `is_valid` on the resulting file returns `True`, whatever the
file held before. -/
theorem api_add_then_is_valid (f : ApiFile) (key : String)
    (h1 : key ≠ "") (h2 : needsQuoting key = false) :
    ∃ f2, ApiHelper.add f key = Except.ok f2 ∧ ApiHelper.is_valid f2 key = true := by
  have hrec : csvWriteRecord [key] = Except.ok key := by
    unfold csvWriteRecord
    rw [if_neg (by simp [h2]), if_neg (by simp [h1])]
    rfl
  refine ⟨⟨f.lines ++ [key]⟩, ?_, ?_⟩
  · unfold ApiHelper.add
    rw [hrec]
  · unfold ApiHelper.is_valid
    rw [List.any_append]
    have hmem : key ∈ csvParseLine key := by
      unfold csvParseLine
      rw [if_neg h1, splitFields_no_comma (no_comma_of_not_needsQuoting h2)]
      simp
    simp [hmem]

theorem api_add_then_is_valid_witness :
    ∃ f2, ApiHelper.add ⟨["k0"]⟩ "k1" = Except.ok f2
      ∧ ApiHelper.is_valid f2 "k1" = true :=
  api_add_then_is_valid ⟨["k0"]⟩ "k1" (by decide) (by decide)

/-- C8, amended. `create_dir` succeeds silently whenever the path
already exists — whether as a directory or as a regular file, since
`mkdir` reports `EEXIST` in both cases and `create_dir` swallows that
errno; a genuinely distinct creation failure (a parent path component
that is a regular file, `ENOTDIR`) propagates; and on a fresh path the
directory and all missing parents are created. -/
theorem create_dir_behaviour (w : World) (path : PyPath) :
    ((resolvePath w.cwd path ∈ w.fs.files ∨ resolvePath w.cwd path ∈ w.fs.dirs) →
        create_dir path w = (Except.ok path, w))
    ∧ (resolvePath w.cwd path ∉ w.fs.files → resolvePath w.cwd path ∉ w.fs.dirs →
        hasFileAncestor w.fs (resolvePath w.cwd path) = true →
        create_dir path w = (Except.error (.osError errnoENOTDIR "NotADirectoryError"), w))
    ∧ (resolvePath w.cwd path ∉ w.fs.files → resolvePath w.cwd path ∉ w.fs.dirs →
        hasFileAncestor w.fs (resolvePath w.cwd path) = false →
        (create_dir path w).1 = Except.ok path
        ∧ ∀ q ∈ pathPrefixes (resolvePath w.cwd path), q ∈ (create_dir path w).2.fs.dirs) := by
  refine ⟨?_, ?_, ?_⟩
  · intro hex
    unfold create_dir osMakedirs
    simp only [if_pos hex]
    rfl
  · intro hf hd hanc
    unfold create_dir osMakedirs
    have hne : ¬(resolvePath w.cwd path ∈ w.fs.files ∨ resolvePath w.cwd path ∈ w.fs.dirs) := by
      tauto
    simp only [if_neg hne, if_pos hanc]
    rfl
  · intro hf hd hanc
    unfold create_dir osMakedirs
    have hne : ¬(resolvePath w.cwd path ∈ w.fs.files ∨ resolvePath w.cwd path ∈ w.fs.dirs) := by
      tauto
    simp only [if_neg hne]
    rw [if_neg (by rw [hanc]; exact Bool.false_ne_true)]
    refine ⟨rfl, ?_⟩
    intro q hq
    exact mem_foldl_insertPath.mpr (Or.inr hq)

theorem create_dir_behaviour_witness :
    (create_dir (.abs ["a", "b"]) ⟨[], ⟨[["a"]], []⟩, [], [], []⟩).1
        = Except.ok (.abs ["a", "b"])
      ∧ ∀ q ∈ pathPrefixes ["a", "b"],
          q ∈ (create_dir (.abs ["a", "b"]) ⟨[], ⟨[["a"]], []⟩, [], [], []⟩).2.fs.dirs :=
  (create_dir_behaviour ⟨[], ⟨[["a"]], []⟩, [], [], []⟩ (.abs ["a", "b"])).2.2
    (by decide) (by decide) (by decide)

theorem osListdir_world (path : PyPath) (w : World) : (osListdir path w).2 = w := by
  simp only [osListdir]
  split
  · rfl
  · split
    · rfl
    · rfl

theorem osRemove_shape (path : PyPath) (w : World) :
    (osRemove path w).2.fs.dirs = w.fs.dirs ∧ (osRemove path w).2.logs = w.logs
      ∧ (∀ e, (osRemove path w).1 = Except.error e → e.isOS = true) := by
  simp only [osRemove]
  split
  · exact ⟨rfl, rfl, fun e he => by cases he; rfl⟩
  · split
    · exact ⟨rfl, rfl, fun e he => by cases he⟩
    · exact ⟨rfl, rfl, fun e he => by cases he; rfl⟩

theorem emptyItem_files_only (path : PyPath) (c : String) (w : World) :
    (emptyItem path true c w).1 = Except.ok ()
      ∧ (emptyItem path true c w).2.fs.dirs = w.fs.dirs
      ∧ (emptyItem path true c w).2.logs = w.logs := by
  have hs := osRemove_shape (path.join c) w
  unfold emptyItem
  rcases hr : osRemove (path.join c) w with ⟨r, w1⟩
  rw [hr] at hs
  cases r with
  | ok a => exact ⟨rfl, hs.1, hs.2.1⟩
  | error e =>
    have heos : e.isOS = true := hs.2.2 e rfl
    cases e with
    | runtimeError m => simp [PyErr.isOS] at heos
    | csvError m => simp [PyErr.isOS] at heos
    | osError n s => exact ⟨rfl, hs.1, hs.2.1⟩

theorem forM_emptyItem_true (path : PyPath) (ns : List String) (w : World) :
    (PyM.forM ns (fun c => emptyItem path true c) w).2.fs.dirs = w.fs.dirs
      ∧ (PyM.forM ns (fun c => emptyItem path true c) w).2.logs = w.logs := by
  induction ns generalizing w with
  | nil => exact ⟨rfl, rfl⟩
  | cons c cs ih =>
    have h1 := emptyItem_files_only path c w
    unfold PyM.forM PyM.bind
    dsimp only
    rcases hr : emptyItem path true c w with ⟨r, w1⟩
    rw [hr] at h1
    cases r with
    | ok a =>
      have h2 := ih w1
      exact ⟨h2.1.trans h1.2.1, h2.2.trans h1.2.2⟩
    | error e => cases h1.1

/-- C9, amended. Purging with `files_only` true never removes a
directory child and never logs anything: the `OSError` raised by
deleting a directory child as a file is silently swallowed — the child
is left intact, but the logging clause of the loop is unreachable for
`OSError`, so the failure goes unrecorded. -/
theorem empty_files_only_preserves_dirs_and_logs (w : World) (path : PyPath) :
    (empty path true w).2.fs.dirs = w.fs.dirs ∧ (empty path true w).2.logs = w.logs := by
  have hld := osListdir_world path w
  unfold empty PyM.bind
  rcases hl : osListdir path w with ⟨r, w1⟩
  rw [hl] at hld
  simp only at hld
  cases r with
  | ok ns =>
    subst hld
    exact forM_emptyItem_true path ns w1
  | error e => subst hld; exact ⟨rfl, rfl⟩

@[simp] theorem resolvePath_rel_nil (cwd : Path) :
    resolvePath cwd (PyPath.rel []) = cwd := by
  simp [resolvePath]

theorem step_shape (o : Oracle) (argv : List String) (msg : String) (p : Path) (w : World) :
    cd (PyPath.abs p) (PyM.bind (subprocessCall o argv) (fun code => warnIf (code != 0) msg)) w
      = (Except.ok (),
         { cwd := p, fs := o.eff argv p w.fs, manifests := w.manifests,
           trace := w.trace ++ [Event.call argv p],
           logs := if o.exit argv p w.fs != 0 then w.logs ++ [LogMsg.warning msg]
                   else w.logs }) := by
  unfold cd PyM.bind subprocessCall warnIf logWarning PyM.pure pushLog
  dsimp only
  by_cases hc : o.exit argv p w.fs != 0
  · simp [hc]
  · simp [hc]

theorem compile_shape (o : Oracle) (t : CompileTask) (p : Path) (w : World)
    (h : t.input_dir = PyPath.abs p) :
    t.compile o w = (Except.ok (),
      { cwd := p, fs := o.eff ["pdflatex", "-interaction=nonstopmode", t.tex] p w.fs,
        manifests := w.manifests,
        trace := w.trace ++ [Event.call ["pdflatex", "-interaction=nonstopmode", t.tex] p],
        logs := if o.exit ["pdflatex", "-interaction=nonstopmode", t.tex] p w.fs != 0
                then w.logs ++ [LogMsg.warning "Compilation finished with errors"]
                else w.logs }) := by
  unfold CompileTask.compile
  rw [h]
  exact step_shape o _ _ p w

theorem makeindex_shape (o : Oracle) (t : CompileTask) (p : Path) (w : World)
    (h : t.input_dir = PyPath.abs p) :
    t.makeindex o w = (Except.ok (),
      { cwd := p, fs := o.eff ["makeindex", t.idx] p w.fs,
        manifests := w.manifests,
        trace := w.trace ++ [Event.call ["makeindex", t.idx] p],
        logs := if o.exit ["makeindex", t.idx] p w.fs != 0
                then w.logs ++ [LogMsg.warning "Makeindex failed"]
                else w.logs }) := by
  unfold CompileTask.makeindex
  rw [h]
  exact step_shape o _ _ p w

theorem bibtex_shape (o : Oracle) (t : CompileTask) (p : Path) (w : World)
    (h : t.input_dir = PyPath.abs p) :
    t.bibtex o w = (Except.ok (),
      { cwd := p, fs := o.eff ["bibtex", t.bib] p w.fs,
        manifests := w.manifests,
        trace := w.trace ++ [Event.call ["bibtex", t.bib] p],
        logs := if o.exit ["bibtex", t.bib] p w.fs != 0
                then w.logs ++ [LogMsg.warning "Bibtex failed"]
                else w.logs }) := by
  unfold CompileTask.bibtex
  rw [h]
  exact step_shape o _ _ p w

theorem passes_shape (o : Oracle) (t : CompileTask) (p : Path) (w : World)
    (h : t.input_dir = PyPath.abs p) :
    ∃ w4, CompileTask.passes o t w = (Except.ok (), w4)
      ∧ w4.cwd = p ∧ w4.manifests = w.manifests
      ∧ w4.trace = w.trace
          ++ [Event.call ["pdflatex", "-interaction=nonstopmode", t.tex] p,
              Event.call ["makeindex", t.idx] p,
              Event.call ["bibtex", t.bib] p,
              Event.call ["pdflatex", "-interaction=nonstopmode", t.tex] p] := by
  unfold CompileTask.passes
  unfold PyM.bind
  rw [compile_shape o t p w h]
  dsimp only
  rw [makeindex_shape o t p _ h]
  dsimp only
  rw [bibtex_shape o t p _ h]
  dsimp only
  rw [compile_shape o t p _ h]
  refine ⟨_, rfl, rfl, rfl, ?_⟩
  simp

theorem concat_ne_concat_of_last_ne {p q : Path} {a b : String} (h : a ≠ b) :
    p ++ [a] ≠ q ++ [b] := by
  intro he
  have hl := congrArg List.getLast? he
  rw [List.getLast?_concat, List.getLast?_concat] at hl
  exact h (Option.some.inj hl)

theorem copy_trace (t : CompileTask) (w : World) :
    ∃ copies, (t.copy w).2.trace = w.trace ++ copies
      ∧ ∀ e ∈ copies, ∃ s d, e = Event.copy s d := by
  unfold CompileTask.copy PyM.bind copyfile
  dsimp only
  by_cases h1 : resolvePath w.cwd (t.input_dir.join t.pdf) ∈ w.fs.files
  · simp only [if_pos h1]
    try dsimp only
    by_cases h2 : resolvePath w.cwd (t.input_dir.join t.log)
        ∈ insertPath (resolvePath w.cwd (t.output_dir.join t.pdf)) w.fs.files
    · simp only [if_pos h2]
      refine ⟨[Event.copy (resolvePath w.cwd (t.input_dir.join t.pdf))
                  (resolvePath w.cwd (t.output_dir.join t.pdf)),
               Event.copy (resolvePath w.cwd (t.input_dir.join t.log))
                  (resolvePath w.cwd (t.output_dir.join t.log))], by simp, ?_⟩
      intro e he
      simp only [List.mem_cons, List.not_mem_nil, or_false] at he
      rcases he with rfl | rfl
      · exact ⟨_, _, rfl⟩
      · exact ⟨_, _, rfl⟩
    · simp only [if_neg h2]
      refine ⟨[Event.copy (resolvePath w.cwd (t.input_dir.join t.pdf))
                  (resolvePath w.cwd (t.output_dir.join t.pdf))], by simp, ?_⟩
      intro e he
      simp only [List.mem_singleton] at he
      exact ⟨_, _, he⟩
  · simp only [if_neg h1]
    exact ⟨[], by simp, by simp⟩

/-- C5. For every compile job whose input directory is the absolute path
`p`, the external invocations of a run are exactly, and in this order:
typeset, index generation, bibliography, typeset — four calls, typeset
twice, every one executed with the working directory at `p` — and the
only events after the fourth pass are file copies: the artifact copy
happens after all four passes, never between them. -/
theorem compile_task_pass_order (o : Oracle) (t : CompileTask) (p : Path) (w : World)
    (h : t.input_dir = PyPath.abs p) :
    ∃ copies,
      ((t.run o w).2.trace
        = w.trace ++ [Event.call ["pdflatex", "-interaction=nonstopmode", t.tex] p,
                      Event.call ["makeindex", t.idx] p,
                      Event.call ["bibtex", t.bib] p,
                      Event.call ["pdflatex", "-interaction=nonstopmode", t.tex] p] ++ copies)
      ∧ ∀ e ∈ copies, ∃ s d, e = Event.copy s d := by
  obtain ⟨w4, hw4, hcwd, hman, htr⟩ :=
    passes_shape o t p (pushLog (.info ("Compiling " ++ t.name)) w) h
  obtain ⟨copies, hct, hc⟩ := copy_trace t w4
  refine ⟨copies, ?_, hc⟩
  unfold CompileTask.run PyM.bind logInfo
  dsimp only
  rw [hw4]
  dsimp only
  rcases hcp : t.copy w4 with ⟨r, w5⟩
  rw [hcp] at hct
  simp only at hct
  cases r with
  | ok a =>
    dsimp only [pushLog]
    rw [hct, htr]
    simp
  | error e =>
    dsimp only
    rw [hct, htr]
    simp

/-- C4. For every compile job with absolute input directory `p` and
output directory `q`, and for arbitrary behaviour of the external tools
(in particular arbitrary, possibly non-zero, exit codes — which are
logged as warnings and never abort the run), the run succeeds if and
only if both `name.pdf` and `name.log` are present in the input
directory after the four passes — the moment the copy inspects them —
and when both are present, both are copied to the output directory. -/
theorem compile_task_success_iff_artifacts (o : Oracle) (t : CompileTask) (p q : Path)
    (w : World) (hin : t.input_dir = PyPath.abs p) (hout : t.output_dir = PyPath.abs q) :
    ((t.run o w).1 = Except.ok ()
        ↔ p ++ [t.pdf]
            ∈ (CompileTask.passes o t (pushLog (.info ("Compiling " ++ t.name)) w)).2.fs.files
          ∧ p ++ [t.log]
            ∈ (CompileTask.passes o t (pushLog (.info ("Compiling " ++ t.name)) w)).2.fs.files)
    ∧ (p ++ [t.pdf]
          ∈ (CompileTask.passes o t (pushLog (.info ("Compiling " ++ t.name)) w)).2.fs.files →
       p ++ [t.log]
          ∈ (CompileTask.passes o t (pushLog (.info ("Compiling " ++ t.name)) w)).2.fs.files →
       q ++ [t.pdf] ∈ (t.run o w).2.fs.files ∧ q ++ [t.log] ∈ (t.run o w).2.fs.files) := by
  obtain ⟨w4, hw4, hcwd, hman, htr⟩ :=
    passes_shape o t p (pushLog (.info ("Compiling " ++ t.name)) w) hin
  have hsrcpdf : t.input_dir.join t.pdf = PyPath.abs (p ++ [t.pdf]) := by
    rw [hin]; exact PyPath.join_abs p t.pdf t.pdf_ne_empty
  have hsrclog : t.input_dir.join t.log = PyPath.abs (p ++ [t.log]) := by
    rw [hin]; exact PyPath.join_abs p t.log t.log_ne_empty
  have hdstpdf : t.output_dir.join t.pdf = PyPath.abs (q ++ [t.pdf]) := by
    rw [hout]; exact PyPath.join_abs q t.pdf t.pdf_ne_empty
  have hdstlog : t.output_dir.join t.log = PyPath.abs (q ++ [t.log]) := by
    rw [hout]; exact PyPath.join_abs q t.log t.log_ne_empty
  rw [hw4]
  unfold CompileTask.run PyM.bind logInfo
  try dsimp only
  rw [hw4]
  try dsimp only
  unfold CompileTask.copy PyM.bind copyfile
  rw [hsrcpdf, hsrclog, hdstpdf, hdstlog]
  try dsimp only [resolvePath]
  by_cases h1 : p ++ [t.pdf] ∈ w4.fs.files
  · simp only [if_pos h1]
    try dsimp only
    by_cases h2 : p ++ [t.log] ∈ insertPath (q ++ [t.pdf]) w4.fs.files
    · have h2a : p ++ [t.log] ∈ w4.fs.files := by
        rcases mem_insertPath.mp h2 with he | hm
        · exact absurd he (concat_ne_concat_of_last_ne t.log_ne_pdf)
        · exact hm
      simp only [if_pos h2]
      try dsimp only
      constructor
      · exact ⟨fun _ => ⟨h1, h2a⟩, fun _ => trivial⟩
      · intro _ _
        exact ⟨mem_insertPath.mpr (Or.inr (mem_insertPath.mpr (Or.inl rfl))),
               mem_insertPath.mpr (Or.inl rfl)⟩
    · have h2a : p ++ [t.log] ∉ w4.fs.files :=
        fun hm => h2 (mem_insertPath.mpr (Or.inr hm))
      simp only [if_neg h2]
      try dsimp only
      constructor
      · constructor
        · intro hfalse; exact Except.noConfusion hfalse
        · intro hc; exact absurd hc.2 h2a
      · intro _ hl; exact absurd hl h2a
  · simp only [if_neg h1]
    try dsimp only
    constructor
    · constructor
      · intro hfalse; exact Except.noConfusion hfalse
      · intro hc; exact absurd hc.1 h1
    · intro hp _; exact absurd hp h1

theorem compile_task_pass_order_witness :
    ∃ copies,
      ((docTask.run nullOracle cdWorld).2.trace
        = cdWorld.trace
            ++ [Event.call ["pdflatex", "-interaction=nonstopmode", docTask.tex] ["job"],
                Event.call ["makeindex", docTask.idx] ["job"],
                Event.call ["bibtex", docTask.bib] ["job"],
                Event.call ["pdflatex", "-interaction=nonstopmode", docTask.tex] ["job"]]
            ++ copies)
      ∧ ∀ e ∈ copies, ∃ s d, e = Event.copy s d :=
  compile_task_pass_order nullOracle docTask ["job"] cdWorld rfl

def artifactWorld : World :=
  ⟨["home"], ⟨[["job"]], [["job", "doc.pdf"], ["job", "doc.log"]]⟩, [], [], []⟩

theorem compile_task_success_iff_artifacts_witness :
    (docTask.run nullOracle artifactWorld).1 = Except.ok () :=
  ((compile_task_success_iff_artifacts nullOracle docTask ["job"] ["out"]
      artifactWorld rfl rfl).1).mpr ⟨by decide, by decide⟩
/-- C2, amended. Fatal errors of class `RuntimeError` raised inside
`Build.run` — clone failure, missing manifest — are caught at the
strategy boundary, logged and swallowed, and the `finally` cleanup can
only raise `OSError`s; hence no invocation of `Build.run`, whatever the
world and the external tools do, ever propagates a `RuntimeError`. An
`OSError`, such as the `FileNotFoundError` from a missing artifact at
copy time, is not caught and does propagate (see the counterexample). -/
theorem build_run_swallows_only_runtime_errors (o : Oracle) (b : Build) (w : World)
    (m : String) :
    (Build.run o b w).1 ≠ Except.error (.runtimeError m) := by
  have hfin : ∀ (w2 w3 : World) (e3 : PyErr),
      PyM.bind (Build.clone_task b).clone_dir (fun d => clean d) w2 = (Except.error e3, w3) →
      e3.isOS = true := by
    intro w2 w3 e3 h3
    rcases PyM.bind_error h3 with hl | ⟨d, wd, hd, hc⟩
    · refine create_dir_error_os
        (q := (Build.clone_task b).repoDir.join (Build.clone_task b).commit) (w := w2) ?_
      unfold CloneTask.clone_dir at hl
      rw [hl]
    · refine shutilRmtree_error_os (q := d) (w := wd) ?_
      unfold clean at hc
      rw [hc]
  intro hcon
  unfold Build.run at hcon
  simp only at hcon
  rcases h1 : Build.attempt o b (pushLog (.info ("Build started for " ++ b.name)) w)
      with ⟨r1, w1⟩
  rw [h1] at hcon
  cases r1 with
  | ok a =>
    simp only at hcon
    rcases h3 : PyM.bind (Build.clone_task b).clone_dir (fun d => clean d) w1 with ⟨r3, w3⟩
    rw [h3] at hcon
    cases r3 with
    | ok c => simp at hcon
    | error e3 =>
      simp only [Except.error.injEq] at hcon
      have hos := hfin w1 w3 e3 h3
      rw [hcon] at hos
      simp [PyErr.isOS] at hos
  | error e1 =>
    cases e1 with
    | runtimeError m1 =>
      simp only at hcon
      rcases h3 : PyM.bind (Build.clone_task b).clone_dir (fun d => clean d)
          (pushLog (.error m1) w1) with ⟨r3, w3⟩
      rw [h3] at hcon
      cases r3 with
      | ok c => simp at hcon
      | error e3 =>
        simp only [Except.error.injEq] at hcon
        have hos := hfin (pushLog (.error m1) w1) w3 e3 h3
        rw [hcon] at hos
        simp [PyErr.isOS] at hos
    | osError n s =>
      simp only at hcon
      rcases h3 : PyM.bind (Build.clone_task b).clone_dir (fun d => clean d) w1 with ⟨r3, w3⟩
      rw [h3] at hcon
      cases r3 with
      | ok c => simp at hcon
      | error e3 =>
        simp only [Except.error.injEq] at hcon
        have hos := hfin w1 w3 e3 h3
        rw [hcon] at hos
        simp [PyErr.isOS] at hos
    | csvError s =>
      simp only at hcon
      rcases h3 : PyM.bind (Build.clone_task b).clone_dir (fun d => clean d) w1 with ⟨r3, w3⟩
      rw [h3] at hcon
      cases r3 with
      | ok c => simp at hcon
      | error e3 =>
        simp only [Except.error.injEq] at hcon
        have hos := hfin w1 w3 e3 h3
        rw [hcon] at hos
        simp [PyErr.isOS] at hos

theorem build_run_swallows_only_runtime_errors_witness :
    (Build.run gitOracle demoBuild buildWorld).1
      ≠ Except.error (.runtimeError "Clone failed") :=
  build_run_swallows_only_runtime_errors gitOracle demoBuild buildWorld "Clone failed"

theorem isPrefixOf_self (p : Path) : p.isPrefixOf p = true := by
  rw [List.isPrefixOf_iff_prefix]

theorem not_mem_rmtree_filter (p : Path) (l : List Path) :
    p ∉ l.filter (fun q => !(p.isPrefixOf q)) := by
  intro hm
  have := (List.mem_filter.mp hm).2
  rw [isPrefixOf_self] at this
  simp at this

theorem finally_removes_checkout (b : CloneTask) (p : Path) (w2 : World)
    (hp : b.repoDir.join b.commit = PyPath.abs p)
    (hsafe : p ∉ w2.fs.files ∨ p ∈ w2.fs.dirs) :
    p ∉ (PyM.bind b.clone_dir (fun d => clean d) w2).2.fs.dirs
    ∧ p ∉ (PyM.bind b.clone_dir (fun d => clean d) w2).2.fs.files := by
  unfold PyM.bind CloneTask.clone_dir create_dir osMakedirs clean shutilRmtree
  rw [hp]
  dsimp only [resolvePath]
  by_cases hd : p ∈ w2.fs.dirs
  · have hex : p ∈ w2.fs.files ∨ p ∈ w2.fs.dirs := Or.inr hd
    simp only [if_pos hex]
    try dsimp only
    rw [if_neg (show ¬(errnoEEXIST ≠ errnoEEXIST) by simp)]
    try dsimp only
    simp only [if_pos hd]
    exact ⟨not_mem_rmtree_filter p w2.fs.dirs, not_mem_rmtree_filter p w2.fs.files⟩
  · rcases hsafe with hf | hd2
    · have hex : ¬(p ∈ w2.fs.files ∨ p ∈ w2.fs.dirs) := by tauto
      simp only [if_neg hex]
      by_cases hanc : hasFileAncestor w2.fs p
      · simp only [if_pos hanc]
        try dsimp only
        exact ⟨hd, hf⟩
      · rw [if_neg (by rw [eq_false_of_ne_true hanc]; exact Bool.false_ne_true)]
        try dsimp only
        have hpd : p ∈ List.foldl (fun l q => insertPath q l) w2.fs.dirs (pathPrefixes p)
            ∨ p ∉ List.foldl (fun l q => insertPath q l) w2.fs.dirs (pathPrefixes p) :=
          em _
        by_cases hmem : p ∈ List.foldl (fun l q => insertPath q l) w2.fs.dirs (pathPrefixes p)
        · simp only [if_pos hmem]
          exact ⟨not_mem_rmtree_filter p _, not_mem_rmtree_filter p _⟩
        · simp only [if_neg hmem]
          by_cases hfm : p ∈ w2.fs.files
          · exact absurd hfm hf
          · simp only [if_neg hfm]
            exact ⟨hmem, hf⟩
    · exact absurd hd2 hd

/-- C3. After a full build's `run` returns — normally or by propagating
an error raised mid-way by the fetch or by a per-entry compilation — the
checkout directory `root/build/owner/repository/revision` does not exist
on disk: the `finally` clause recreates the path with `create_dir`
(whose `EEXIST` swallow makes this a no-op when it survived) and then
removes the whole tree with `shutil.rmtree`. Assumption: the name parts
are nonempty and the fetch/compile phase has not left a regular
(non-directory) file at the checkout path — `rmtree` cannot remove such
a file, and nothing in the pipeline itself creates one there. -/
theorem build_run_removes_checkout (o : Oracle) (r : Path) (ow rp cm : String) (w : World)
    (how : ow ≠ "") (hrp : rp ≠ "") (hcm : cm ≠ "")
    (hsafe :
      r ++ ["build", ow, rp, cm]
          ∉ (Build.attempt o ⟨.abs r, ow, rp, cm⟩
              (pushLog (.info ("Build started for " ++ Build.name ⟨.abs r, ow, rp, cm⟩))
                w)).2.fs.files
      ∨ r ++ ["build", ow, rp, cm]
          ∈ (Build.attempt o ⟨.abs r, ow, rp, cm⟩
              (pushLog (.info ("Build started for " ++ Build.name ⟨.abs r, ow, rp, cm⟩))
                w)).2.fs.dirs) :
    r ++ ["build", ow, rp, cm] ∉ (Build.run o ⟨.abs r, ow, rp, cm⟩ w).2.fs.dirs
    ∧ r ++ ["build", ow, rp, cm] ∉ (Build.run o ⟨.abs r, ow, rp, cm⟩ w).2.fs.files := by
  have hpath : (Build.clone_task ⟨.abs r, ow, rp, cm⟩).repoDir.join
      (Build.clone_task ⟨.abs r, ow, rp, cm⟩).commit
        = PyPath.abs (r ++ ["build", ow, rp, cm]) := by
    unfold Build.clone_task CloneTask.repoDir Build.input_dir
    dsimp only
    rw [PyPath.join_abs r "build" (by decide), PyPath.join_abs _ ow how,
        PyPath.join_abs _ rp hrp, PyPath.join_abs _ cm hcm]
    simp
  unfold Build.run
  simp only
  rcases h1 : Build.attempt o ⟨.abs r, ow, rp, cm⟩
      (pushLog (.info ("Build started for " ++ Build.name ⟨.abs r, ow, rp, cm⟩)) w)
      with ⟨r1, w1⟩
  rw [h1] at hsafe
  cases r1 with
  | ok a =>
    have hfin := finally_removes_checkout (Build.clone_task ⟨.abs r, ow, rp, cm⟩)
        (r ++ ["build", ow, rp, cm]) w1 hpath hsafe
    rcases h3 : PyM.bind (Build.clone_task ⟨.abs r, ow, rp, cm⟩).clone_dir
        (fun d => clean d) w1 with ⟨r3, w3⟩
    rw [h3] at hfin
    cases r3 with
    | ok c => exact hfin
    | error e3 => exact hfin
  | error e1 =>
    cases e1 with
    | runtimeError m1 =>
      have hfin := finally_removes_checkout (Build.clone_task ⟨.abs r, ow, rp, cm⟩)
          (r ++ ["build", ow, rp, cm]) (pushLog (.error m1) w1) hpath hsafe
      rcases h3 : PyM.bind (Build.clone_task ⟨.abs r, ow, rp, cm⟩).clone_dir
          (fun d => clean d) (pushLog (.error m1) w1) with ⟨r3, w3⟩
      rw [h3] at hfin
      cases r3 with
      | ok c => exact hfin
      | error e3 => exact hfin
    | osError n s =>
      have hfin := finally_removes_checkout (Build.clone_task ⟨.abs r, ow, rp, cm⟩)
          (r ++ ["build", ow, rp, cm]) w1 hpath hsafe
      rcases h3 : PyM.bind (Build.clone_task ⟨.abs r, ow, rp, cm⟩).clone_dir
          (fun d => clean d) w1 with ⟨r3, w3⟩
      rw [h3] at hfin
      cases r3 with
      | ok c => exact hfin
      | error e3 => exact hfin
    | csvError s =>
      have hfin := finally_removes_checkout (Build.clone_task ⟨.abs r, ow, rp, cm⟩)
          (r ++ ["build", ow, rp, cm]) w1 hpath hsafe
      rcases h3 : PyM.bind (Build.clone_task ⟨.abs r, ow, rp, cm⟩).clone_dir
          (fun d => clean d) w1 with ⟨r3, w3⟩
      rw [h3] at hfin
      cases r3 with
      | ok c => exact hfin
      | error e3 => exact hfin

theorem isPrefixOf_concat_self_false (pp : Path) (n : String) :
    (pp ++ [n]).isPrefixOf pp = false := by
  by_contra hcon
  have hb : (pp ++ [n]).isPrefixOf pp = true := by
    cases hx : (pp ++ [n]).isPrefixOf pp
    · exact absurd hx hcon
    · rfl
  have hpre := List.isPrefixOf_iff_prefix.mp hb
  have := hpre.length_le
  simp at this

@[simp] theorem PyPath.join_abs_empty (p : List String) :
    (PyPath.abs p).join "" = PyPath.abs p := by
  unfold PyPath.join
  simp

theorem emptyItem_false_ok (pp : Path) (n : String) (w w1 : World)
    (hinv : pp ∈ w.fs.files → pp ∈ w.fs.dirs)
    (h : emptyItem (PyPath.abs pp) false n w = (Except.ok (), w1)) :
    (pp ++ [n] ∉ w1.fs.dirs ∧ pp ++ [n] ∉ w1.fs.files)
    ∧ (pp ∈ w1.fs.files → pp ∈ w1.fs.dirs)
    ∧ (∀ q, q ∈ w1.fs.dirs → q ∈ w.fs.dirs)
    ∧ (∀ q, q ∈ w1.fs.files → q ∈ w.fs.files) := by
  by_cases hn : n = ""
  · subst hn
    unfold emptyItem at h
    simp only [PyPath.join_abs_empty] at h
    unfold osRemove shutilRmtree at h
    dsimp only [resolvePath] at h
    by_cases hd : pp ∈ w.fs.dirs
    · simp only [if_pos hd] at h
      injection h with hfst hsnd
      subst hsnd
      refine ⟨⟨?_, ?_⟩, ?_, ?_, ?_⟩
      · intro hm
        have := (List.mem_filter.mp hm).2
        rw [show pp.isPrefixOf (pp ++ [""]) = true from
          List.isPrefixOf_iff_prefix.mpr ⟨[""], rfl⟩] at this
        simp at this
      · intro hm
        have := (List.mem_filter.mp hm).2
        rw [show pp.isPrefixOf (pp ++ [""]) = true from
          List.isPrefixOf_iff_prefix.mpr ⟨[""], rfl⟩] at this
        simp at this
      · intro hm
        have := (List.mem_filter.mp hm).2
        rw [isPrefixOf_self] at this
        simp at this
      · exact fun q hq => (List.mem_filter.mp hq).1
      · exact fun q hq => (List.mem_filter.mp hq).1
    · have hf : pp ∉ w.fs.files := fun hm => hd (hinv hm)
      simp only [if_neg hd, if_neg hf] at h
      cases h
  · unfold emptyItem at h
    simp only [PyPath.join_abs pp n hn] at h
    unfold osRemove shutilRmtree at h
    dsimp only [resolvePath] at h
    by_cases hd : pp ++ [n] ∈ w.fs.dirs
    · simp only [if_pos hd] at h
      injection h with hfst hsnd
      subst hsnd
      refine ⟨⟨not_mem_rmtree_filter _ _, not_mem_rmtree_filter _ _⟩, ?_, ?_, ?_⟩
      · intro hm
        exact List.mem_filter.mpr ⟨hinv (List.mem_filter.mp hm).1, (List.mem_filter.mp hm).2⟩
      · exact fun q hq => (List.mem_filter.mp hq).1
      · exact fun q hq => (List.mem_filter.mp hq).1
    · by_cases hfl : pp ++ [n] ∈ w.fs.files
      · simp only [if_neg hd, if_pos hfl] at h
        injection h with hfst hsnd
        subst hsnd
        refine ⟨⟨hd, ?_⟩, ?_, fun q hq => hq, fun q hq => (List.mem_filter.mp hq).1⟩
        · intro hm
          have := (List.mem_filter.mp hm).2
          simp at this
        · intro hm
          exact hinv ((List.mem_filter.mp hm).1)
      · simp only [if_neg hd, if_neg hfl] at h
        cases h

theorem forM_emptyItem_false_ok (pp : Path) (ns : List String) (w w2 : World)
    (hinv : pp ∈ w.fs.files → pp ∈ w.fs.dirs)
    (h : PyM.forM ns (fun c => emptyItem (PyPath.abs pp) false c) w = (Except.ok (), w2)) :
    (∀ n ∈ ns, pp ++ [n] ∉ w2.fs.dirs ∧ pp ++ [n] ∉ w2.fs.files)
    ∧ (∀ q, q ∈ w2.fs.dirs → q ∈ w.fs.dirs)
    ∧ (∀ q, q ∈ w2.fs.files → q ∈ w.fs.files) := by
  induction ns generalizing w with
  | nil =>
    unfold PyM.forM PyM.pure at h
    injection h with hfst hsnd
    subst hsnd
    exact ⟨by simp, fun q hq => hq, fun q hq => hq⟩
  | cons c cs ih =>
    unfold PyM.forM PyM.bind at h
    dsimp only at h
    rcases hr : emptyItem (PyPath.abs pp) false c w with ⟨r, w1⟩
    rw [hr] at h
    cases r with
    | error e => cases h
    | ok a =>
      have hi := emptyItem_false_ok pp c w w1 hinv hr
      have hic := ih w1 hi.2.1 h
      refine ⟨?_, fun q hq => hi.2.2.1 q (hic.2.1 q hq),
              fun q hq => hi.2.2.2 q (hic.2.2 q hq)⟩
      intro n hn
      rcases List.mem_cons.mp hn with rfl | hn2
      · exact ⟨fun hm => hi.1.1 (hic.2.1 _ hm), fun hm => hi.1.2 (hic.2.2 _ hm)⟩
      · exact hic.1 n hn2

theorem empty_false_ok_no_children (pp : Path) (w w2 : World)
    (h : empty (PyPath.abs pp) false w = (Except.ok (), w2)) :
    (∀ s, pp ++ [s] ∉ w2.fs.dirs ∧ pp ++ [s] ∉ w2.fs.files)
    ∧ (∀ q, q ∈ w2.fs.dirs → q ∈ w.fs.dirs)
    ∧ (∀ q, q ∈ w2.fs.files → q ∈ w.fs.files) := by
  unfold empty PyM.bind at h
  rcases hl : osListdir (PyPath.abs pp) w with ⟨rl, wl⟩
  rw [hl] at h
  cases rl with
  | error e => cases h
  | ok ns =>
    have hlw : wl = w := by
      have hx := osListdir_world (PyPath.abs pp) w
      rw [hl] at hx
      exact hx
    rw [hlw] at h
    have hpp : pp ∈ w.fs.dirs ∧ ns = w.fs.children pp := by
      simp only [osListdir] at hl
      dsimp only [resolvePath] at hl
      by_cases hd : pp ∈ w.fs.dirs
      · rw [if_pos hd] at hl
        injection hl with hfst hsnd
        injection hfst with hval
        exact ⟨hd, hval.symm⟩
      · rw [if_neg hd] at hl
        split at hl <;> (injection hl with hfst hsnd; exact absurd hfst (by simp))
    have hforM := forM_emptyItem_false_ok pp ns w w2 (fun _ => hpp.1) h
    refine ⟨?_, hforM.2.1, hforM.2.2⟩
    intro s
    by_cases hchild : pp ++ [s] ∈ w.fs.dirs ∨ pp ++ [s] ∈ w.fs.files
    · exact hforM.1 s (hpp.2 ▸ children_complete hchild)
    · push_neg at hchild
      exact ⟨fun hm => hchild.1 (hforM.2.1 _ hm), fun hm => hchild.2 (hforM.2.2 _ hm)⟩

/-- C6. Fetch purges everything under `root/owner/repository` before
creating the new revision directory and cloning into it; consequently,
after running fetch twice with different revisions (both succeeding),
exactly one revision directory — the latest — exists under the
repository path. Assumption: the external tools neither create nor
delete revision directories other than through the purge/create steps
themselves (the `hEff` premise), and the name parts are nonempty. -/
theorem clone_task_single_revision_dir (o : Oracle) (r : Path) (ow rp c1 c2 : String)
    (w : World) (how : ow ≠ "") (hrp : rp ≠ "") (hc1 : c1 ≠ "") (hc2 : c2 ≠ "")
    (hne : c1 ≠ c2)
    (hEff : ∀ argv cwd fs s,
      (r ++ [ow, rp]) ++ [s] ∈ (Oracle.eff o argv cwd fs).dirs
        ↔ (r ++ [ow, rp]) ++ [s] ∈ fs.dirs)
    (h1 : (CloneTask.run o ⟨.abs r, ow, rp, c1⟩ w).1 = Except.ok ())
    (h2 : (CloneTask.run o ⟨.abs r, ow, rp, c2⟩
        ((CloneTask.run o ⟨.abs r, ow, rp, c1⟩ w).2)).1 = Except.ok ()) :
    ∀ s, ((r ++ [ow, rp]) ++ [s]
        ∈ (CloneTask.run o ⟨.abs r, ow, rp, c2⟩
            ((CloneTask.run o ⟨.abs r, ow, rp, c1⟩ w).2)).2.fs.dirs
      ↔ s = c2) := by
  have hrepo : CloneTask.repoDir ⟨.abs r, ow, rp, c2⟩ = PyPath.abs (r ++ [ow, rp]) := by
    unfold CloneTask.repoDir
    dsimp only
    rw [PyPath.join_abs r ow how, PyPath.join_abs _ rp hrp]
    simp
  have hp2 : (CloneTask.repoDir ⟨.abs r, ow, rp, c2⟩).join c2
      = PyPath.abs ((r ++ [ow, rp]) ++ [c2]) := by
    rw [hrepo, PyPath.join_abs _ c2 hc2]
  set wmid := (CloneTask.run o ⟨.abs r, ow, rp, c1⟩ w).2 with hwmid
  unfold CloneTask.run PyM.bind at h2 ⊢
  rcases hcl : CloneTask.clean ⟨.abs r, ow, rp, c2⟩ wmid with ⟨rc, wA⟩
  rw [hcl] at h2
  cases rc with
  | error e => exact absurd h2 (by simp)
  | ok a =>
    have hclean := empty_false_ok_no_children (r ++ [ow, rp]) wmid wA (by
      have hx := hcl
      unfold CloneTask.clean at hx
      rw [hrepo] at hx
      exact hx)
    unfold CloneTask.clone PyM.bind logInfo at h2 ⊢
    dsimp only at h2 ⊢
    rcases hcd : CloneTask.clone_dir ⟨.abs r, ow, rp, c2⟩
        (pushLog (.info ("Cloning from " ++ CloneTask.url ⟨.abs r, ow, rp, c2⟩)) wA)
        with ⟨rd, wC⟩
    rw [hcd] at h2
    -- characterize the created directory before casing on rd
    have hnotd : (r ++ [ow, rp]) ++ [c2] ∉ wA.fs.dirs := (hclean.1 c2).1
    have hnotf : (r ++ [ow, rp]) ++ [c2] ∉ wA.fs.files := (hclean.1 c2).2
    unfold CloneTask.clone_dir create_dir osMakedirs at hcd
    rw [hp2] at hcd
    dsimp only [resolvePath] at hcd
    simp only [pushLog_fs] at hcd
    rw [if_neg (by
      intro hor
      rcases hor with hx | hx
      · exact hnotf hx
      · exact hnotd hx)] at hcd
    cases rd with
    | error e => exact absurd h2 (by simp)
    | ok d =>
      by_cases hanc : hasFileAncestor wA.fs ((r ++ [ow, rp]) ++ [c2])
      · rw [if_pos hanc] at hcd
        exact absurd hcd (by simp [errnoENOTDIR, errnoEEXIST])
      · rw [if_neg (by rw [eq_false_of_ne_true hanc]; exact Bool.false_ne_true)] at hcd
        injection hcd with hcfst hcsnd
        unfold subprocessCall at h2 ⊢
        dsimp only at h2 ⊢
        by_cases hcode : (Oracle.exit o ["git", "clone", CloneTask.url ⟨.abs r, ow, rp, c2⟩,
            PyPath.toStr d] wC.cwd wC.fs != 0) = true
        · rw [if_pos hcode] at h2
          exact absurd h2 (by simp [raise])
        · rw [if_neg hcode] at h2 ⊢
          intro s
          unfold PyM.pure
          dsimp only
          rw [hEff]
          rw [← hcsnd]
          dsimp only
          rw [mem_foldl_insertPath]
          constructor
          · intro hor
            rcases hor with hx | hx
            · exact absurd hx (hclean.1 s).1
            · exact child_prefix_of_concat hx
          · intro hs
            subst hs
            exact Or.inr (self_mem_pathPrefixes (by simp))

/-- C7, amended. The lazy build counts the entries `os.listdir` reports
under `root/build/owner/repository` — files as well as subdirectories.
When that count is zero or two or more, `commit_dir` raises the state
error and the build run performs no external call at all (its trace is
unchanged); when the count is exactly one, `commit_dir` returns that
single entry's path and the build proceeds against it. -/
theorem lazy_build_entry_count (o : Oracle) (r : Path) (ow rp nm : String) (w : World)
    (how : ow ≠ "") (hrp : rp ≠ "")
    (hdir : r ++ ["build", ow, rp] ∈ w.fs.dirs) :
    ((w.fs.children (r ++ ["build", ow, rp])).length ≠ 1 →
      (LazyBuild.commit_dir ⟨.abs r, ow, rp, nm⟩ w).1
          = Except.error (.runtimeError "Unable to determine commit directory for lazy build")
      ∧ (LazyBuild.run o ⟨.abs r, ow, rp, nm⟩ w).2.trace = w.trace)
    ∧ (∀ s, w.fs.children (r ++ ["build", ow, rp]) = [s] →
      LazyBuild.commit_dir ⟨.abs r, ow, rp, nm⟩ w
          = (Except.ok ((PyPath.abs (r ++ ["build", ow, rp])).join s), w)) := by
  have hjoin : ((LazyBuild.input_dir ⟨.abs r, ow, rp, nm⟩).join ow).join rp
      = PyPath.abs (r ++ ["build", ow, rp]) := by
    unfold LazyBuild.input_dir
    dsimp only
    rw [PyPath.join_abs r "build" (by decide), PyPath.join_abs _ ow how,
        PyPath.join_abs _ rp hrp]
    simp
  have hcdir : ∀ (w' : World), w'.fs = w.fs →
      LazyBuild.commit_dir ⟨.abs r, ow, rp, nm⟩ w'
        = (if (w.fs.children (r ++ ["build", ow, rp])).length = 1 then
             (Except.ok ((PyPath.abs (r ++ ["build", ow, rp])).join
                ((w.fs.children (r ++ ["build", ow, rp])).headD "")), w')
           else (Except.error
                (.runtimeError "Unable to determine commit directory for lazy build"), w')) := by
    intro w' hw'
    unfold LazyBuild.commit_dir PyM.bind osListdir
    rw [hjoin]
    dsimp only [resolvePath]
    rw [hw']
    rw [if_pos hdir]
    dsimp only
    by_cases hlen : (w.fs.children (r ++ ["build", ow, rp])).length = 1
    · rw [if_pos hlen, if_pos hlen]
      rfl
    · rw [if_neg hlen, if_neg hlen]
      rfl
  constructor
  · intro hlen
    have hc0 := hcdir (pushLog (.info ("Build (lazy) started for "
        ++ LazyBuild.name ⟨.abs r, ow, rp, nm⟩)) w) rfl
    rw [if_neg hlen] at hc0
    have hcw := hcdir w rfl
    rw [if_neg hlen] at hcw
    refine ⟨by rw [hcw], ?_⟩
    unfold LazyBuild.run PyM.bind
    simp only
    rw [hc0]
    rfl
  · intro s hs
    have hcw := hcdir w rfl
    rw [if_pos (by rw [hs]; rfl)] at hcw
    rw [hs] at hcw
    exact hcw

theorem build_run_removes_checkout_witness :
    ["r", "build", "o", "p", "c"]
        ∉ (Build.run gitOracle ⟨.abs ["r"], "o", "p", "c"⟩ buildWorld).2.fs.dirs
    ∧ ["r", "build", "o", "p", "c"]
        ∉ (Build.run gitOracle ⟨.abs ["r"], "o", "p", "c"⟩ buildWorld).2.fs.files :=
  build_run_removes_checkout gitOracle ["r"] "o" "p" "c" buildWorld
    (by decide) (by decide) (by decide) (Or.inl (by decide))

theorem clone_task_single_revision_dir_witness :
    ((["r", "build"] ++ ["o", "p"]) ++ ["c2"]
        ∈ (CloneTask.run nullOracle ⟨.abs ["r", "build"], "o", "p", "c2"⟩
            ((CloneTask.run nullOracle ⟨.abs ["r", "build"], "o", "p", "c1"⟩
              buildWorld).2)).2.fs.dirs)
    ∧ ((["r", "build"] ++ ["o", "p"]) ++ ["c1"]
        ∉ (CloneTask.run nullOracle ⟨.abs ["r", "build"], "o", "p", "c2"⟩
            ((CloneTask.run nullOracle ⟨.abs ["r", "build"], "o", "p", "c1"⟩
              buildWorld).2)).2.fs.dirs) :=
  ⟨(clone_task_single_revision_dir nullOracle ["r", "build"] "o" "p" "c1" "c2" buildWorld
      (by decide) (by decide) (by decide) (by decide) (by decide)
      (fun argv cwd fs s => Iff.rfl) (by decide) (by decide) "c2").mpr rfl,
   fun hm => (by decide : ¬("c1" = "c2"))
     ((clone_task_single_revision_dir nullOracle ["r", "build"] "o" "p" "c1" "c2" buildWorld
      (by decide) (by decide) (by decide) (by decide) (by decide)
      (fun argv cwd fs s => Iff.rfl) (by decide) (by decide) "c1").mp hm)⟩

theorem lazy_build_entry_count_witness :
    LazyBuild.commit_dir ⟨.abs ["r"], "o", "p", "doc"⟩ lazyWorld
      = (Except.ok ((PyPath.abs (["r"] ++ ["build", "o", "p"])).join "stray"), lazyWorld) :=
  (lazy_build_entry_count nullOracle ["r"] "o" "p" "doc" lazyWorld (by decide) (by decide)
      (by decide)).2 "stray" (by decide)
end Intexration
